import Mathlib

/-!
Verification of the nmea_seatalk_multiplexer core against its specification.

The development shallowly embeds the transport layer (`device_io.py`), the
NMEA device read loop (`nmea/nmea.py`) and the binary (seatalk) frame codec.
The codec implementation itself is not part of the available sources (only
its test suite is), so the codec is modelled from the specification text and
the byte vectors fixed by the test suite.

The file is organised as the definitions of all models first, then the
theorems about them.
-/

namespace Seatalk

/-- Modelled from the spec: the binary codec's dispatch table (the seatalk
codec sources are absent; only their tests are available).  Maps a leading
command byte to the number of bytes that follow the length-encoding byte in a
well-formed frame of that command.  Entries are the supported commands fixed
by the test suite's byte vectors.  The table is populated at process start
and read-only thereafter, which the embedding renders as a pure function. -/
def commandTable : Nat → Option Nat
  | 0x00 => some 3
  | 0x01 => some 6
  | 0x10 => some 2
  | 0x11 => some 2
  | 0x20 => some 2
  | 0x23 => some 2
  | 0x26 => some 5
  | 0x27 => some 2
  | 0x30 => some 1
  | 0x36 => some 1
  | 0x90 => some 1
  | 0x91 => some 1
  | _ => none

/-- The command byte of the depth datagram (test vector
`0x00 0x02 0x00 0xDB 0x02`). -/
def depthCommand : Nat := 0x00

/-- Modelled from the spec: a decoded datagram.  It carries its command
identity, the high nibble of the length-encoding byte (data for some
commands) and the payload bytes, enough to re-encode the exact frame. -/
structure Datagram where
  cmd : Nat
  attrHigh : Nat
  payload : List Nat
deriving Repr, DecidableEq

/-- Modelled from the spec: validity of a constructed datagram. The command
must be in the dispatch table with the payload length the table expects, the
high nibble of the length-encoding byte must fit in a nibble, and all bytes
must be bytes. -/
def validDatagram (d : Datagram) : Bool :=
  commandTable d.cmd == some d.payload.length &&
  d.attrHigh < 16 && d.cmd < 256 && d.payload.all (fun b => b < 256)

/-- Modelled from the spec: decode errors of a single binary-frame decode
attempt. -/
inductive DecodeError where
  | UnrecognizedCommand
  | InsufficientData
  | ExcessData
deriving Repr, DecidableEq

/-- Modelled from the spec: encoding a datagram assembles the command byte,
the length-encoding byte (high nibble of data, low nibble declaring the
remaining length minus one) and the payload bytes. -/
def encode (d : Datagram) : List Nat :=
  d.cmd :: (d.attrHigh * 16 + (d.payload.length - 1)) :: d.payload

/-- Modelled from the spec: decoding one candidate frame.  (1) look up the
command byte, unknown commands are `UnrecognizedCommand`; (2) derive the
declared remaining length from the low nibble of the length-encoding byte;
(3) verify the declared length against the table's rule and the supplied
bytes against the declared length, short input is `InsufficientData`, long
input is `ExcessData`; (4) construct the datagram. -/
def decode (frame : List Nat) : Except DecodeError Datagram :=
  match frame with
  | [] => .error .InsufficientData
  | cmd :: rest =>
    match commandTable cmd with
    | none => .error .UnrecognizedCommand
    | some expected =>
      match rest with
      | [] => .error .InsufficientData
      | attr :: payload =>
        let declared := attr % 16 + 1
        if declared < expected then .error .InsufficientData
        else if expected < declared then .error .ExcessData
        else if payload.length < declared then .error .InsufficientData
        else if declared < payload.length then .error .ExcessData
        else .ok ⟨cmd, attr / 16, payload⟩

/-- A well-formed captured frame: a known command byte, a length-encoding
byte declaring exactly the byte count the dispatch table expects for that
command, and byte-valued content. -/
def wellFormedFrame (frame : List Nat) : Bool :=
  match frame with
  | cmd :: attr :: payload =>
    commandTable cmd == some payload.length &&
    attr % 16 + 1 == payload.length &&
    attr < 256 && cmd < 256 && payload.all (fun b => b < 256)
  | _ => false

/-- The device read loop's view of a stream of candidate frames: every decode
attempt is independent, failed attempts are dropped and the successfully
decoded datagrams are kept in order. -/
def decodeStream (frames : List (List Nat)) : List Datagram :=
  frames.filterMap (fun f => (decode f).toOption)

end Seatalk

namespace NMEA

/-- Outcome of `NMEADatagram.parse_nmea_sentence` on a checksum-valid line.
Modelled from the spec: the nmea_datagram sources are absent; per the spec,
parsing either succeeds or reports unrecognized tag content, which is
tolerated (not fatal). -/
inductive ParseOutcome where
  | ok
  | unknownTag
deriving Repr, DecidableEq

/-- One newline-terminated line as returned by `_receive_until_new_line`,
together with the outcomes of checksum verification and tag parsing on it. -/
structure Line where
  data : List Nat
  checksumOk : Bool
  parse : ParseOutcome
deriving Repr, DecidableEq

/-- Observable state of an `NMEADevice` read loop: the device read queue,
the number of `flush` calls on the underlying transport, the number of
error records on the device logger, the global error-log count and the
info-log count. -/
structure DeviceState where
  readQueue : List (List Nat)
  flushes : Nat
  deviceErrorLogs : Nat
  errorLogs : Nat
  infoLogs : Nat
deriving Repr, DecidableEq

def initState : DeviceState := ⟨[], 0, 0, 0, 0⟩

/-- One iteration of `NMEADevice._read_task`: verify the checksum (an
`NMEAParseError` jumps to the handler); on success attempt to parse the
sentence, ignoring `UnknownNMEATag`, log the line, put it into the read
queue, and — after the try block — put it into the read queue a second
time; on checksum failure flush the transport, log the error on the device
logger and the global logger, and continue without publishing. -/
def readTaskStep (s : DeviceState) (l : Line) : DeviceState :=
  if l.checksumOk then
    { s with infoLogs := s.infoLogs + 1,
             readQueue := s.readQueue ++ [l.data] ++ [l.data] }
  else
    { s with flushes := s.flushes + 1,
             deviceErrorLogs := s.deviceErrorLogs + 1,
             errorLogs := s.errorLogs + 1 }

/-- The read loop run over a finite prefix of the incoming line stream. -/
def runReadTask (ls : List Line) : DeviceState :=
  ls.foldl readTaskStep initState

/-- The checksum-valid lines of a stream, each repeated twice, in order. -/
def duplicatedData : List Line → List (List Nat)
  | [] => []
  | l :: ls =>
    if l.checksumOk then l.data :: l.data :: duplicatedData ls
    else duplicatedData ls

end NMEA

namespace TCP

/-- The fixed bound `_read_write_size` shared by the read and write queues
of a TCP transport. -/
def queueCapacity : Nat := 1000

/-- Observable state of a `TCP` transport: the number of connected clients,
the bounded write and read queues, and the warning and info log counts.
A `curio.Queue(n)` reports full exactly when it holds at least `n` items. -/
structure TCPState where
  clientCount : Nat
  writeQueue : List (List Nat)
  readQueue : List (List Nat)
  warnLogs : Nat
  infoLogs : Nat
deriving Repr, DecidableEq

/-- Translation of `TCP._write`: log (info) if no client is connected; when
the write queue is full, log a warning and drop the data; otherwise enqueue
it.  The function is total: the caller always gets control back, with no
exception and no blocking. -/
def tcpWrite (s : TCPState) (data : List Nat) : TCPState :=
  let s1 := if s.clientCount = 0 then { s with infoLogs := s.infoLogs + 1 } else s
  if queueCapacity ≤ s1.writeQueue.length then
    { s1 with warnLogs := s1.warnLogs + 1 }
  else
    { s1 with writeQueue := s1.writeQueue ++ [data] }

/-- Translation of one iteration of the receive loop in `TCP._serve_client`:
an empty block means the peer disconnected (no queue change in that
iteration); otherwise, when the read queue is full the freshly received
block is dropped with a warning, else it is enqueued. -/
def serveClientReceive (s : TCPState) (dataBlock : List Nat) : TCPState :=
  if dataBlock = [] then s
  else if queueCapacity ≤ s.readQueue.length then
    { s with warnLogs := s.warnLogs + 1 }
  else
    { s with readQueue := s.readQueue ++ [dataBlock] }

end TCP

namespace TCPClient

/-- One outcome of the body of the supervising `while True` loop in
`TCPClient._open_connection`: the connection attempt (or the serving of an
established connection) ends in one of the three caught connection-class
exception kinds, or a connection is established and served, or the task is
cancelled. -/
inductive ConnOutcome where
  | timeoutError
  | connectionError
  | osError
  | served
  | cancelled
deriving Repr, DecidableEq

/-- The connection-class failures caught by `except (TimeoutError,
ConnectionError, OSError)`. -/
def isConnFailure : ConnOutcome → Bool
  | .timeoutError => true
  | .connectionError => true
  | .osError => true
  | .served => false
  | .cancelled => false

/-- Externally visible actions of the supervising loop. -/
inductive ClientAction where
  | logConnectError
  | backoffSleep (seconds : Nat)
  | serveConnection
  | exitCancelled
deriving Repr, DecidableEq

/-- Translation of `TCPClient._open_connection`: an endless loop that tries
to connect and serve; a caught connection-class failure is logged, followed
by a fixed 1-second sleep, and the loop retries; a successful connection is
served; only a delivered cancellation ends the loop. -/
def openConnection : List ConnOutcome → List ClientAction
  | [] => []
  | .cancelled :: _ => [.exitCancelled]
  | .served :: rest => .serveConnection :: openConnection rest
  | .timeoutError :: rest => .logConnectError :: .backoffSleep 1 :: openConnection rest
  | .connectionError :: rest => .logConnectError :: .backoffSleep 1 :: openConnection rest
  | .osError :: rest => .logConnectError :: .backoffSleep 1 :: openConnection rest

/-- The log-and-backoff action pairs produced by a run of failed attempts. -/
def backoffActions : List ConnOutcome → List ClientAction
  | [] => []
  | _ :: rest => .logConnectError :: .backoffSleep 1 :: backoffActions rest

end TCPClient

namespace Encoding

/-- A configured character set: partial decoding of raw bytes to text and
partial encoding of text to bytes; `none` stands for the codec raising
`UnicodeDecodeError` respectively `UnicodeEncodeError`. -/
structure Charset where
  dec : List Nat → Option (List Nat)
  enc : List Nat → Option (List Nat)

/-- What the base transport's `read` hands back: raw bytes when no encoding
is configured, decoded text otherwise. -/
inductive ReadData where
  | binary (bs : List Nat)
  | text (t : List Nat)
deriving DecidableEq

/-- Translation of the base `read` of `device_io`: take the lock, read raw
bytes, and if an encoding is configured decode them, turning a decode
error into a logged error and an empty string result. Returns the data the
caller sees and the updated error-log count. -/
def ioRead (c : Option Charset) (raw : List Nat) (errorLogs : Nat) :
    ReadData × Nat :=
  match c with
  | none => (.binary raw, errorLogs)
  | some cs =>
    match cs.dec raw with
    | some t => (.text t, errorLogs)
    | none => (.text [], errorLogs + 1)

/-- Translation of the base `write` of `device_io`: if an encoding is
configured encode the text first, turning an encode error into a logged
error and an empty byte payload; then transmit under the lock. Returns the
payload handed to the backend's raw write and the updated error-log
count. -/
def ioWrite (c : Option Charset) (data : List Nat) (errorLogs : Nat) :
    List Nat × Nat :=
  match c with
  | none => (data, errorLogs)
  | some cs =>
    match cs.enc data with
    | some b => (b, errorLogs)
    | none => ([], errorLogs + 1)

/-- A charset on which every decode and encode attempt fails, for concrete
instantiation. -/
def failingCharset : Charset := ⟨fun _ => none, fun _ => none⟩

end Encoding

namespace FileDevice

/-- Observable state of a `File` transport: the configured path (a path
identity) and the monotonic read cursor `_last_index`. -/
structure FileState where
  pathToFile : Nat
  lastIndex : Nat
deriving Repr, DecidableEq

/-- The resource-unavailable error of the file transport's initialization
(`FileNotFoundError`). -/
inductive InitError where
  | fileNotFound
deriving Repr, DecidableEq

/-- Translation of the `initialize` method of `File` against a filesystem
mapping each path to the contents of the file there, if one exists: raise
`FileNotFoundError` when the configured path does not exist, otherwise
return with the state untouched. -/
def fileInit (fs : Nat → Option (List Nat)) (st : FileState) :
    Except InitError FileState :=
  match fs st.pathToFile with
  | none => .error .fileNotFound
  | some _ => .ok st

/-- Translation of `File._read`: re-open and re-read the whole file, return
the slice of `length` bytes starting at the cursor (shorter if the file
ends first) and advance the cursor by exactly `length`. -/
def fileRead (contents : List Nat) (st : FileState) (length : Nat) :
    List Nat × FileState :=
  ((contents.drop st.lastIndex).take length,
   { st with lastIndex := st.lastIndex + length })

end FileDevice

namespace LockModel

/-- The kind of a logical operation on one transport instance: a call to
`read` or a call to `write`. -/
inductive OpKind where
  | readOp
  | writeOp
deriving Repr, DecidableEq

/-- Interleaving state of the in-flight operations on one transport
instance.  Every operation runs the same discipline on the instance's one
`_read_write_lock`: program counter 0 is before the `async with` of the
lock, 1 is holding the lock inside the backend `_read`/`_write` body, 2 is
after the release.  `lockHeld` is the state of that single lock. -/
structure LockSystem where
  pcs : List Nat
  lockHeld : Bool
deriving Repr, DecidableEq

/-- All operations start before their lock acquisition, the lock free. -/
def initLock (tasks : List OpKind) : LockSystem :=
  ⟨List.replicate tasks.length 0, false⟩

/-- One cooperative scheduling step: the chosen operation acquires the
shared lock if it is before it and the lock is free (otherwise it stays
suspended on the acquire), or releases it when its body is done; anything
else is a no-op. -/
def lockStep (s : LockSystem) (i : Nat) : LockSystem :=
  match s.pcs[i]? with
  | some 0 =>
    if s.lockHeld then s
    else ⟨s.pcs.set i 1, true⟩
  | some 1 => ⟨s.pcs.set i 2, false⟩
  | _ => s

/-- A full interleaved run of the in-flight operations under an arbitrary
schedule. -/
def runLock (tasks : List OpKind) (schedule : List Nat) : LockSystem :=
  schedule.foldl lockStep (initLock tasks)

/-- The exclusion invariant: at most one operation is inside its lock-held
body, and whenever the lock is free nobody is. -/
def lockInv (s : LockSystem) : Prop :=
  (∀ i j : Nat, s.pcs[i]? = some 1 → s.pcs[j]? = some 1 → i = j) ∧
  (s.lockHeld = false → ∀ i : Nat, s.pcs[i]? ≠ some 1)

end LockModel

namespace Seatalk

theorem commandTable_bounds {c L : Nat} (h : commandTable c = some L) :
    1 ≤ L ∧ L ≤ 6 := by
  unfold commandTable at h
  split at h
  all_goals first
    | (injection h with h; omega)
    | cases h

theorem decode_encode {d : Datagram} (h : validDatagram d = true) :
    decode (encode d) = .ok d := by
  obtain ⟨cmd, attrHigh, payload⟩ := d
  simp only [validDatagram, Bool.and_eq_true, beq_iff_eq, decide_eq_true_eq] at h
  obtain ⟨⟨⟨htab, _⟩, _⟩, _⟩ := h
  obtain ⟨hL1, hL6⟩ := commandTable_bounds htab
  simp only [encode, decode, htab]
  have hmod : (attrHigh * 16 + (payload.length - 1)) % 16 = payload.length - 1 := by
    omega
  have hdiv : (attrHigh * 16 + (payload.length - 1)) / 16 = attrHigh := by
    omega
  rw [if_neg (by omega), if_neg (by omega), if_neg (by omega), if_neg (by omega), hdiv]

theorem encode_decode {f : List Nat} (h : wellFormedFrame f = true) :
    ∃ d : Datagram, decode f = .ok d ∧ encode d = f := by
  match f with
  | [] => simp [wellFormedFrame] at h
  | [_] => simp [wellFormedFrame] at h
  | cmd :: attr :: payload =>
    simp only [wellFormedFrame, Bool.and_eq_true, beq_iff_eq, decide_eq_true_eq] at h
    obtain ⟨⟨⟨⟨htab, hdecl⟩, _⟩, _⟩, _⟩ := h
    refine ⟨⟨cmd, attr / 16, payload⟩, ?_, ?_⟩
    · simp only [decode, htab]
      rw [if_neg (by omega), if_neg (by omega), if_neg (by omega), if_neg (by omega)]
    · simp only [encode]
      have : attr / 16 * 16 + (payload.length - 1) = attr := by omega
      rw [this]

theorem decode_dropLast {f : List Nat} (h : wellFormedFrame f = true) :
    decode f.dropLast = .error .InsufficientData := by
  match f with
  | [] => simp [wellFormedFrame] at h
  | [_] => simp [wellFormedFrame] at h
  | [_, _] =>
    simp only [wellFormedFrame, Bool.and_eq_true, beq_iff_eq, decide_eq_true_eq] at h
    obtain ⟨⟨⟨⟨htab, hdecl⟩, _⟩, _⟩, _⟩ := h
    simp only [List.length_nil] at htab hdecl
    omega
  | cmd :: attr :: p :: ps =>
    simp only [wellFormedFrame, Bool.and_eq_true, beq_iff_eq, decide_eq_true_eq] at h
    obtain ⟨⟨⟨⟨htab, hdecl⟩, _⟩, _⟩, _⟩ := h
    simp only [List.length_cons] at htab hdecl
    show decode (cmd :: attr :: (p :: ps).dropLast) = .error .InsufficientData
    simp only [decode, htab, List.length_dropLast, List.length_cons]
    rw [if_neg (by omega), if_neg (by omega), if_pos (by omega)]

theorem decode_append_byte {f : List Nat} (b : Nat) (h : wellFormedFrame f = true) :
    decode (f ++ [b]) = .error .ExcessData := by
  match f with
  | [] => simp [wellFormedFrame] at h
  | [_] => simp [wellFormedFrame] at h
  | [cmd, attr] =>
    simp only [wellFormedFrame, Bool.and_eq_true, beq_iff_eq, decide_eq_true_eq] at h
    obtain ⟨⟨⟨⟨htab, hdecl⟩, _⟩, _⟩, _⟩ := h
    simp only [List.length_nil] at htab hdecl
    omega
  | cmd :: attr :: p :: ps =>
    simp only [wellFormedFrame, Bool.and_eq_true, beq_iff_eq, decide_eq_true_eq] at h
    obtain ⟨⟨⟨⟨htab, hdecl⟩, _⟩, _⟩, _⟩ := h
    simp only [List.length_cons] at htab hdecl
    show decode (cmd :: attr :: ((p :: ps) ++ [b])) = .error .ExcessData
    simp only [decode, htab, List.length_append, List.length_cons]
    rw [if_neg (by omega), if_neg (by omega), if_neg (by omega), if_pos (by omega)]

theorem decode_unknown_command {cmd : Nat} (rest : List Nat)
    (h : commandTable cmd = none) :
    decode (cmd :: rest) = .error .UnrecognizedCommand := by
  simp [decode, h]

/-- C1: for every supported command and validly constructed datagram `d`,
`decode (encode d) = d`; for every well-formed captured frame,
re-encoding the decoded datagram reproduces the frame byte-for-byte; and
the concrete bytes `0x00 0x02 0x00 0xDB 0x02` decode to the depth datagram
carrying payload bytes `0x00 0xDB 0x02`, whose re-encoding is exactly those
five bytes. -/
theorem c1_codec_round_trip :
    (∀ d : Datagram, validDatagram d = true → decode (encode d) = .ok d) ∧
    (∀ f : List Nat, wellFormedFrame f = true →
      ∃ d : Datagram, decode f = .ok d ∧ encode d = f) ∧
    decode [0x00, 0x02, 0x00, 0xDB, 0x02] =
      .ok ⟨depthCommand, 0, [0x00, 0xDB, 0x02]⟩ ∧
    encode ⟨depthCommand, 0, [0x00, 0xDB, 0x02]⟩ =
      [0x00, 0x02, 0x00, 0xDB, 0x02] :=
  ⟨fun _ h => decode_encode h, fun _ h => encode_decode h, by rfl, by rfl⟩

/-- Closed-instance witness for `c1_codec_round_trip`, at the depth test
vector. -/
theorem c1_codec_round_trip_witness :
    validDatagram ⟨depthCommand, 0, [0x00, 0xDB, 0x02]⟩ = true ∧
    decode (encode ⟨depthCommand, 0, [0x00, 0xDB, 0x02]⟩) =
      .ok ⟨depthCommand, 0, [0x00, 0xDB, 0x02]⟩ ∧
    wellFormedFrame [0x01, 0x05, 0x04, 0xBA, 0x20, 0x28, 0x01, 0x00] = true ∧
    (∃ d : Datagram,
      decode [0x01, 0x05, 0x04, 0xBA, 0x20, 0x28, 0x01, 0x00] = .ok d ∧
      encode d = [0x01, 0x05, 0x04, 0xBA, 0x20, 0x28, 0x01, 0x00]) :=
  ⟨by decide, c1_codec_round_trip.1 _ (by decide), by decide,
   c1_codec_round_trip.2.1 _ (by decide)⟩

/-- C2: a single binary-frame decode attempt fails with `InsufficientData`
when one byte fewer than the declared frame length is available, with
`ExcessData` when one byte more than the declared length is supplied, and
with `UnrecognizedCommand` when the leading command byte has no
dispatch-table entry; each failure is scoped to that one decode attempt:
the results of the remaining attempts of the stream are unaffected. -/
theorem c2_decode_failures :
    (∀ f : List Nat, wellFormedFrame f = true →
      decode f.dropLast = .error .InsufficientData) ∧
    (∀ (f : List Nat) (b : Nat), wellFormedFrame f = true →
      decode (f ++ [b]) = .error .ExcessData) ∧
    (∀ (cmd : Nat) (rest : List Nat), commandTable cmd = none →
      decode (cmd :: rest) = .error .UnrecognizedCommand) ∧
    (∀ (bad : List Nat) (frames : List (List Nat)) (e : DecodeError),
      decode bad = .error e → decodeStream (bad :: frames) = decodeStream frames) :=
  ⟨fun _ h => decode_dropLast h,
   fun _ b h => decode_append_byte b h,
   fun _ rest h => decode_unknown_command rest h,
   fun _ frames _ h => by
     simp [decodeStream, List.filterMap_cons, h, Except.toOption]⟩

/-- Closed-instance witness for `c2_decode_failures`: the depth frame less
its last byte, the depth frame plus an extra byte, the unrecognized command
byte `0xFF` of the test suite, and scoping of a failed attempt in a
two-frame stream. -/
theorem c2_decode_failures_witness :
    decode ([0x00, 0x02, 0x00, 0xDB, 0x02].dropLast) = .error .InsufficientData ∧
    decode ([0x00, 0x02, 0x00, 0xDB, 0x02] ++ [0x00]) = .error .ExcessData ∧
    decode [0xFF, 0x03, 0x00, 0x00, 0x00, 0x00] = .error .UnrecognizedCommand ∧
    decodeStream [[0xFF, 0x03], [0x00, 0x02, 0x00, 0xDB, 0x02]] =
      decodeStream [[0x00, 0x02, 0x00, 0xDB, 0x02]] :=
  ⟨c2_decode_failures.1 _ (by decide),
   c2_decode_failures.2.1 _ 0x00 (by decide),
   c2_decode_failures.2.2.1 0xFF [0x03, 0x00, 0x00, 0x00, 0x00] (by rfl),
   c2_decode_failures.2.2.2 _ _ .UnrecognizedCommand (by rfl)⟩

end Seatalk

namespace NMEA

theorem foldl_readTaskStep_queue (ls : List Line) (s : DeviceState) :
    (ls.foldl readTaskStep s).readQueue = s.readQueue ++ duplicatedData ls := by
  induction ls generalizing s with
  | nil => simp [duplicatedData]
  | cons l ls ih =>
    simp only [List.foldl_cons, duplicatedData, ih (readTaskStep s l)]
    by_cases h : l.checksumOk = true
    · simp [readTaskStep, h]
    · simp [readTaskStep, h]

/-- C3: in `NMEADevice._read_task` every line that passes checksum
verification — including lines whose tag is unknown — is put into the read
queue twice, once inside the verification try block and once after it, so
the queue a consumer drains holds each successfully verified line
duplicated, and nothing else. -/
theorem c3_verified_lines_duplicated :
    (∀ ls : List Line, (runReadTask ls).readQueue = duplicatedData ls) ∧
    (∀ (s : DeviceState) (l : Line), l.checksumOk = true →
      (readTaskStep s l).readQueue = s.readQueue ++ [l.data, l.data]) := by
  constructor
  · intro ls
    simpa [initState] using foldl_readTaskStep_queue ls initState
  · intro s l h
    simp [readTaskStep, h]

/-- Closed-instance witness for `c3_verified_lines_duplicated`: a
checksum-valid line with an unknown tag is queued twice. -/
theorem c3_verified_lines_duplicated_witness :
    (readTaskStep initState ⟨[0x24, 0x41], true, .unknownTag⟩).readQueue =
      initState.readQueue ++ [[0x24, 0x41], [0x24, 0x41]] :=
  c3_verified_lines_duplicated.2 initState ⟨[0x24, 0x41], true, .unknownTag⟩ (by decide)

/-- C5: a line failing checksum verification causes a transport flush, an
error record on both loggers and no publication, and the loop goes on with
the remaining lines; a checksum-valid line whose tag is unknown is
tolerated and still published. -/
theorem c5_parse_error_handling :
    (∀ (s : DeviceState) (l : Line), l.checksumOk = false →
      (readTaskStep s l).readQueue = s.readQueue ∧
      (readTaskStep s l).flushes = s.flushes + 1 ∧
      (readTaskStep s l).deviceErrorLogs = s.deviceErrorLogs + 1 ∧
      (readTaskStep s l).errorLogs = s.errorLogs + 1) ∧
    (∀ (bad : Line) (rest : List Line), bad.checksumOk = false →
      (runReadTask (bad :: rest)).readQueue = (runReadTask rest).readQueue) ∧
    (∀ (s : DeviceState) (l : Line), l.checksumOk = true → l.parse = .unknownTag →
      (readTaskStep s l).readQueue = s.readQueue ++ [l.data, l.data]) := by
  refine ⟨?_, ?_, ?_⟩
  · intro s l h
    simp [readTaskStep, h]
  · intro bad rest h
    have h1 := foldl_readTaskStep_queue (bad :: rest) initState
    have h2 := foldl_readTaskStep_queue rest initState
    simp only [duplicatedData, h, Bool.false_eq_true, if_false] at h1
    simp only [runReadTask, h1, h2]
  · intro s l h _
    simp [readTaskStep, h]

/-- Closed-instance witness for `c5_parse_error_handling`: a line with a
bad checksum is flushed, logged and not published; the loop then still
publishes a later valid line twice. -/
theorem c5_parse_error_handling_witness :
    (readTaskStep initState ⟨[0x24], false, .ok⟩).readQueue = initState.readQueue ∧
    (readTaskStep initState ⟨[0x24], false, .ok⟩).flushes = initState.flushes + 1 ∧
    (runReadTask [⟨[0x24], false, .ok⟩, ⟨[0x47], true, .ok⟩]).readQueue =
      (runReadTask [⟨[0x47], true, .ok⟩]).readQueue ∧
    (readTaskStep initState ⟨[0x47], true, .unknownTag⟩).readQueue =
      initState.readQueue ++ [[0x47], [0x47]] :=
  ⟨(c5_parse_error_handling.1 initState ⟨[0x24], false, .ok⟩ (by decide)).1,
   (c5_parse_error_handling.1 initState ⟨[0x24], false, .ok⟩ (by decide)).2.1,
   c5_parse_error_handling.2.1 ⟨[0x24], false, .ok⟩ [⟨[0x47], true, .ok⟩] (by decide),
   c5_parse_error_handling.2.2 initState ⟨[0x47], true, .unknownTag⟩ (by decide) (by decide)⟩

end NMEA

namespace TCP

/-- C4: on a TCP transport, a write while the bounded write queue is full
drops the data with a logged warning and returns to the caller (the step
function is total, so it neither blocks nor raises), a received byte block
while the bounded read queue is full is dropped with a logged warning, a
non-full queue accepts the item, and neither queue ever grows beyond the
fixed bound of 1000 entries. -/
theorem c4_queue_backpressure :
    (∀ (s : TCPState) (d : List Nat), queueCapacity ≤ s.writeQueue.length →
      (tcpWrite s d).writeQueue = s.writeQueue ∧
      (tcpWrite s d).warnLogs = s.warnLogs + 1) ∧
    (∀ (s : TCPState) (d : List Nat), s.writeQueue.length < queueCapacity →
      (tcpWrite s d).writeQueue = s.writeQueue ++ [d]) ∧
    (∀ (s : TCPState) (d : List Nat), d ≠ [] →
      queueCapacity ≤ s.readQueue.length →
      (serveClientReceive s d).readQueue = s.readQueue ∧
      (serveClientReceive s d).warnLogs = s.warnLogs + 1) ∧
    (∀ (s : TCPState) (d : List Nat), s.writeQueue.length ≤ queueCapacity →
      (tcpWrite s d).writeQueue.length ≤ queueCapacity) ∧
    (∀ (s : TCPState) (d : List Nat), s.readQueue.length ≤ queueCapacity →
      (serveClientReceive s d).readQueue.length ≤ queueCapacity) := by
  refine ⟨?_, ?_, ?_, ?_, ?_⟩
  · intro s d h
    by_cases hc : s.clientCount = 0 <;> simp [tcpWrite, hc, if_pos h]
  · intro s d h
    by_cases hc : s.clientCount = 0 <;>
      simp [tcpWrite, hc, if_neg (Nat.not_le.mpr h)]
  · intro s d hd h
    simp [serveClientReceive, hd, if_pos h]
  · intro s d h
    by_cases hc : s.clientCount = 0 <;>
      by_cases hf : queueCapacity ≤ s.writeQueue.length <;>
      simp [tcpWrite, hc, hf] <;> omega
  · intro s d h
    by_cases hd : d = [] <;>
      by_cases hf : queueCapacity ≤ s.readQueue.length <;>
      simp [serveClientReceive, hd, hf] <;> omega

set_option maxRecDepth 8000 in
/-- Closed-instance witness for `c4_queue_backpressure`, at a queue filled
to its capacity of 1000 and at an empty queue. -/
theorem c4_queue_backpressure_witness :
    (tcpWrite ⟨1, List.replicate 1000 [], [], 0, 0⟩ [0x42]).writeQueue =
      List.replicate 1000 [] ∧
    (tcpWrite ⟨1, [], [], 0, 0⟩ [0x42]).writeQueue = [] ++ [[0x42]] ∧
    (serveClientReceive ⟨1, [], List.replicate 1000 [], 0, 0⟩ [0x42]).readQueue =
      List.replicate 1000 [] ∧
    (tcpWrite ⟨1, List.replicate 1000 [], [], 0, 0⟩ [0x42]).writeQueue.length ≤
      queueCapacity :=
  ⟨(c4_queue_backpressure.1 _ [0x42] (by simp [queueCapacity, List.length_replicate])).1,
   c4_queue_backpressure.2.1 _ [0x42] (by simp [queueCapacity, List.length_replicate]),
   (c4_queue_backpressure.2.2.1 _ [0x42] (by simp)
     (by simp [queueCapacity, List.length_replicate])).1,
   c4_queue_backpressure.2.2.2.1 _ [0x42]
     (by simp [queueCapacity, List.length_replicate])⟩

end TCP

namespace TCPClient

theorem openConnection_failure {o : ConnOutcome} (rest : List ConnOutcome)
    (h : isConnFailure o = true) :
    openConnection (o :: rest) =
      .logConnectError :: .backoffSleep 1 :: openConnection rest := by
  cases o <;> simp_all [isConnFailure, openConnection]

theorem openConnection_exit_only_cancel (outs : List ConnOutcome)
    (h : .exitCancelled ∈ openConnection outs) : .cancelled ∈ outs := by
  induction outs with
  | nil => simp [openConnection] at h
  | cons o rest ih =>
    cases o <;> simp_all [openConnection]

theorem openConnection_eventually_serves (fails : List ConnOutcome)
    (rest : List ConnOutcome) (h : ∀ o ∈ fails, isConnFailure o = true) :
    openConnection (fails ++ .served :: rest) =
      backoffActions fails ++ .serveConnection :: openConnection rest := by
  induction fails with
  | nil => simp [openConnection, backoffActions]
  | cons f fs ih =>
    have hf : isConnFailure f = true := h f (by simp)
    have hfs : ∀ o ∈ fs, isConnFailure o = true := fun o ho => h o (by simp [ho])
    cases f <;> simp_all [openConnection, backoffActions, isConnFailure]

/-- C6: in the supervising loop of the reconnecting outbound client, every
connection-class failure (timeout, connection error, OS error) is logged
and followed by the fixed 1-second backoff, after which the loop retries
with the remaining outcomes; the loop exits only when a cancellation is
delivered; and after any run of failures followed by a successful
connection, the loop serves that connection. -/
theorem c6_reconnect_loop :
    (∀ (o : ConnOutcome) (rest : List ConnOutcome), isConnFailure o = true →
      openConnection (o :: rest) =
        .logConnectError :: .backoffSleep 1 :: openConnection rest) ∧
    (∀ outs : List ConnOutcome,
      .exitCancelled ∈ openConnection outs → .cancelled ∈ outs) ∧
    (∀ fails rest : List ConnOutcome, (∀ o ∈ fails, isConnFailure o = true) →
      openConnection (fails ++ .served :: rest) =
        backoffActions fails ++ .serveConnection :: openConnection rest) :=
  ⟨fun _ rest h => openConnection_failure rest h,
   fun outs h => openConnection_exit_only_cancel outs h,
   fun fails rest h => openConnection_eventually_serves fails rest h⟩

/-- Closed-instance witness for `c6_reconnect_loop`: two failed attempts
followed by a successful connection, and a cancelled run. -/
theorem c6_reconnect_loop_witness :
    openConnection [.connectionError] =
      .logConnectError :: .backoffSleep 1 :: openConnection [] ∧
    .cancelled ∈ ([.served, .cancelled] : List ConnOutcome) ∧
    openConnection ([.connectionError, .timeoutError] ++ .served :: []) =
      backoffActions [.connectionError, .timeoutError] ++
        .serveConnection :: openConnection [] :=
  ⟨c6_reconnect_loop.1 .connectionError [] (by decide),
   c6_reconnect_loop.2.1 [.served, .cancelled] (by decide),
   c6_reconnect_loop.2.2 [.connectionError, .timeoutError] [] (by decide)⟩

end TCPClient

namespace Encoding

/-- C7: with a character encoding configured, a read whose bytes fail to
decode logs the error and yields an empty string instead of propagating,
and a write whose text fails to encode logs the error and transmits an
empty byte payload for that call instead of raising. -/
theorem c7_charset_error_handling :
    (∀ (cs : Charset) (raw : List Nat) (n : Nat), cs.dec raw = none →
      ioRead (some cs) raw n = (.text [], n + 1)) ∧
    (∀ (cs : Charset) (d : List Nat) (n : Nat), cs.enc d = none →
      ioWrite (some cs) d n = ([], n + 1)) ∧
    (∀ (cs : Charset) (raw t : List Nat) (n : Nat), cs.dec raw = some t →
      ioRead (some cs) raw n = (.text t, n)) ∧
    (∀ (cs : Charset) (d b : List Nat) (n : Nat), cs.enc d = some b →
      ioWrite (some cs) d n = (b, n)) := by
  refine ⟨?_, ?_, ?_, ?_⟩ <;> intro cs x n h <;>
    first
      | simp [ioRead, h]
      | (intro h2; simp [ioRead, ioWrite, h2])
      | simp [ioWrite, h]

/-- Closed-instance witness for `c7_charset_error_handling` on a charset
that rejects every input. -/
theorem c7_charset_error_handling_witness :
    failingCharset.dec [0xFF] = none ∧
    ioRead (some failingCharset) [0xFF] 0 = (.text [], 1) ∧
    ioWrite (some failingCharset) [0x41] 5 = ([], 6) :=
  ⟨rfl, c7_charset_error_handling.1 failingCharset [0xFF] 0 rfl,
   c7_charset_error_handling.2.1 failingCharset [0x41] 5 rfl⟩

end Encoding

namespace FileDevice

/-- C8: the file transport's `initialize` fails with the
resource-unavailable error (`FileNotFoundError`) exactly when the
configured path does not exist in the filesystem; when the path exists it
returns normally with the instance's path and cursor unchanged. -/
theorem c8_file_init :
    ∀ (fs : Nat → Option (List Nat)) (st : FileState),
      (fileInit fs st = .error .fileNotFound ↔ fs st.pathToFile = none) ∧
      (∀ c : List Nat, fs st.pathToFile = some c → fileInit fs st = .ok st) := by
  intro fs st
  constructor
  · cases h : fs st.pathToFile <;> simp [fileInit, h]
  · intro c h
    simp [fileInit, h]

/-- Closed-instance witness for `c8_file_init`: a filesystem without the
path and one with it. -/
theorem c8_file_init_witness :
    (fileInit (fun _ => none) ⟨7, 3⟩ = .error .fileNotFound ↔
      (fun _ => (none : Option (List Nat))) 7 = none) ∧
    fileInit (fun _ => some [0x00]) ⟨7, 3⟩ = .ok ⟨7, 3⟩ :=
  ⟨(c8_file_init (fun _ => none) ⟨7, 3⟩).1,
   (c8_file_init (fun _ => some [0x00]) ⟨7, 3⟩).2 [0x00] rfl⟩

/-- C9: `File._read` on a cursor `c` re-reads the current contents and
returns exactly the bytes of the slice `[c, c+n)` — of length `n`, or
shorter if the file ends first — leaves the path unchanged and advances the
cursor by exactly `n`, so the cursor strictly increases on every
positive-length read, and two consecutive reads concatenate to the single
contiguous slice of the combined length: they are consecutive and
non-overlapping. -/
theorem c9_file_read :
    ∀ (contents : List Nat) (st : FileState) (n : Nat),
      (fileRead contents st n).1.length = min n (contents.length - st.lastIndex) ∧
      (∀ i : Nat, i < n →
        (fileRead contents st n).1[i]? = contents[st.lastIndex + i]?) ∧
      (fileRead contents st n).2.lastIndex = st.lastIndex + n ∧
      (fileRead contents st n).2.pathToFile = st.pathToFile ∧
      (0 < n → st.lastIndex < (fileRead contents st n).2.lastIndex) ∧
      (∀ m : Nat,
        (fileRead contents st n).1 ++
          (fileRead contents (fileRead contents st n).2 m).1 =
        (contents.drop st.lastIndex).take (n + m)) := by
  intro contents st n
  refine ⟨?_, ?_, rfl, rfl, ?_, ?_⟩
  · simp [fileRead]
  · intro i hi
    simp only [fileRead, List.getElem?_take, if_pos hi, List.getElem?_drop]
  · intro h
    simp only [fileRead]
    omega
  · intro m
    simp [fileRead, List.take_add, List.drop_drop, Nat.add_comm]

/-- Closed-instance witness for `c9_file_read`: reading 2 then 2 bytes of a
5-byte file from cursor 1. -/
theorem c9_file_read_witness :
    (0 : Nat) < 2 ∧
    (fileRead [10, 11, 12, 13, 14] ⟨0, 1⟩ 2).2.lastIndex = 3 ∧
    (fileRead [10, 11, 12, 13, 14] ⟨0, 1⟩ 2).1 ++
      (fileRead [10, 11, 12, 13, 14] (fileRead [10, 11, 12, 13, 14] ⟨0, 1⟩ 2).2 2).1 =
      ([10, 11, 12, 13, 14].drop 1).take 4 :=
  ⟨by decide,
   (c9_file_read [10, 11, 12, 13, 14] ⟨0, 1⟩ 2).2.2.1,
   (c9_file_read [10, 11, 12, 13, 14] ⟨0, 1⟩ 2).2.2.2.2.2 2⟩

end FileDevice

namespace LockModel

theorem lockStep_inv {s : LockSystem} (hs : lockInv s) (i : Nat) :
    lockInv (lockStep s i) := by
  obtain ⟨hmutex, hfree⟩ := hs
  unfold lockStep
  cases hpc : s.pcs[i]? with
  | none => exact ⟨hmutex, hfree⟩
  | some pc =>
    match pc with
    | 0 =>
      by_cases hl : s.lockHeld
      · simp only [hl, if_true]
        exact ⟨hmutex, hfree⟩
      · simp only [Bool.not_eq_true] at hl
        simp only [hl, Bool.false_eq_true, if_false]
        have hnone : ∀ a : Nat, a ≠ i → s.pcs[a]? ≠ some 1 := fun a _ => hfree hl a
        constructor
        · intro a b ha hb
          by_cases hai : a = i
          · by_cases hbi : b = i
            · rw [hai, hbi]
            · rw [List.getElem?_set_ne (fun hh => hbi hh.symm)] at hb
              exact absurd hb (hnone b hbi)
          · rw [List.getElem?_set_ne (fun hh => hai hh.symm)] at ha
            exact absurd ha (hnone a hai)
        · intro hfalse
          simp at hfalse
    | 1 =>
      have hilen : i < s.pcs.length := (List.getElem?_eq_some_iff.mp hpc).1
      have hnoone : ∀ a : Nat, (s.pcs.set i 2)[a]? ≠ some 1 := by
        intro a ha
        by_cases hai : a = i
        · rw [hai, List.getElem?_set_eq_of_lt 2 hilen] at ha
          exact absurd (Option.some_inj.mp ha) (by omega)
        · rw [List.getElem?_set_ne (fun hh => hai hh.symm)] at ha
          exact hai (hmutex a i ha hpc)
      exact ⟨fun a b ha _ => absurd ha (hnoone a), fun _ a => hnoone a⟩
    | (_ + 2) => exact ⟨hmutex, hfree⟩

theorem foldl_lockStep_inv {s : LockSystem} (hs : lockInv s) :
    ∀ l : List Nat, lockInv (l.foldl lockStep s)
  | [] => hs
  | x :: xs => foldl_lockStep_inv (lockStep_inv hs x) xs

theorem runLock_inv (tasks : List OpKind) (schedule : List Nat) :
    lockInv (runLock tasks schedule) := by
  have hinit : lockInv (initLock tasks) := by
    constructor
    · intro a b ha _
      rcases List.getElem?_eq_some_iff.mp ha with ⟨hlt, hval⟩
      simp only [initLock, List.getElem_replicate] at hval
      omega
    · intro _ a ha
      rcases List.getElem?_eq_some_iff.mp ha with ⟨hlt, hval⟩
      simp only [initLock, List.getElem_replicate] at hval
      omega
  exact foldl_lockStep_inv hinit schedule

/-- C10: on one transport instance all logical read and write operations go
through the single shared lock, so in every reachable interleaving at most
one of them — in particular at most one read, at most one write, and never
a read and a write together — is inside its backend I/O body, and whenever
the shared lock is free none is: concurrent `read` and `write` calls on
the instance serialize end-to-end through that one gate. -/
theorem c10_read_write_mutual_exclusion :
    ∀ (tasks : List OpKind) (schedule : List Nat),
      (∀ i j : Nat, (runLock tasks schedule).pcs[i]? = some 1 →
        (runLock tasks schedule).pcs[j]? = some 1 → i = j) ∧
      ((runLock tasks schedule).lockHeld = false →
        ∀ i : Nat, (runLock tasks schedule).pcs[i]? ≠ some 1) :=
  fun tasks schedule => runLock_inv tasks schedule

/-- Closed-instance witness for `c10_read_write_mutual_exclusion`: a read
and a write racing on one instance; after the read acquires the lock it is
the only operation in its body. -/
theorem c10_read_write_mutual_exclusion_witness :
    (runLock [.readOp, .writeOp] [0]).pcs[0]? = some 1 ∧ (0 : Nat) = 0 :=
  ⟨by rfl,
   (c10_read_write_mutual_exclusion [.readOp, .writeOp] [0]).1 0 0
     (by rfl) (by rfl)⟩

end LockModel
